import Mathlib

/-!
Verification of the ACPProtocol agent-bridge engine (src/core.js, with the
batch transport variant of src/unnamed/part_001 and the fixed-whitelist
variant of src/unnamed/part_000).  The JavaScript class is shallowly
embedded: instance fields become the `Engine` structure, methods become
functions `Engine → ... → Engine × result`, thrown exceptions become
`Except.error`, and the invocation of a stored promise resolver is recorded
in an explicit `resolutions` trace.  Timestamps (`new Date().toISOString()`)
are threaded in as an explicit `now : String` argument.
-/

namespace Acp

/-- Status field of a CallRecord, `executing | completed | failed` in the
spec data model.  The source only ever writes `executing` and `completed`. -/
inductive Status where
  | executing
  | completed
  | failed
deriving DecidableEq, Repr

/-- CallRecord entries of `toolCallLog` (core.js lines 86-97). -/
structure CallRecord where
  timestamp : String
  toolName : String
  params : String
  status : Status
  result : Option String
deriving DecidableEq, Repr

/-- RejectionRecord entries of `rejectedCallLog` (core.js lines 69-74). -/
structure RejectionRecord where
  timestamp : String
  attemptedTool : String
  reason : String
  availableTools : List String
deriving DecidableEq, Repr

/-- A tool handler: receives the params payload, returns a result or fails.
JSON payloads are kept opaque as strings. -/
def Handler : Type := String → Except String String

/-- The result object of a JSON-RPC response, modelled by the one field the
engine inspects (`msg.result?.sessionId`, core.js line 175) plus an opaque
remainder. -/
structure RVal where
  sessionId : Option String
  payload : String
deriving DecidableEq, Repr

/-- The error object of a JSON-RPC error response, `\x7bcode, message\x7d`. -/
structure JErr where
  code : Int
  message : String
deriving DecidableEq, Repr

/-- A parsed inbound JSON-RPC message as inspected by `handleMessage`
(core.js lines 158-191): each field is `none` when the JSON value lacks it
(JavaScript `undefined`). -/
structure Msg where
  method : Option String
  id : Option Nat
  result : Option RVal
  error : Option JErr
  params : Option String
deriving DecidableEq, Repr

/-- The payload a pending-request resolver is invoked with: `msg.result`,
`\x7berror: msg.error\x7d` (core.js line 183), or the synthetic
`\x7btimeout: true\x7d` object (core.js line 258) modelled by `timedOut`. -/
inductive Resolution where
  | result (r : RVal)
  | errorPayload (e : JErr)
  | timedOut
deriving DecidableEq, Repr

/-- Outbound wire messages written by `send` (core.js line 202), with the
payloads abstracted to the fields the claims mention. -/
inductive OutMsg where
  | request (id : Nat) (method : String)
  | response (id : Option Nat) (result : String)
  | errorResponse (id : Option Nat) (code : Int) (message : String)
  | initResponse (id : Option Nat) (tools : List String)
deriving DecidableEq, Repr

/-- The instance state of the `ACPProtocol` class (core.js constructor,
lines 5-20).  `resolutions` is the observable trace of resolver invocations
for stored pending requests, and `events` the trace of `emit` calls;
`outbox` collects the messages passed to `send`.  The JavaScript `Set` and
the plain-object maps are modelled as insertion-ordered lists. -/
structure Engine where
  messageId : Nat
  instruction : Option String
  toolWhitelist : List String
  toolSchemas : List (String × String)
  toolDescriptions : List (String × String)
  toolCallLog : List CallRecord
  rejectedCallLog : List RejectionRecord
  tools : List (String × Handler)
  pendingRequests : List Nat
  buffer : List Char
  initialized : Bool
  sessionId : Option String
  resolutions : List (Nat × Resolution)
  outbox : List OutMsg
  events : List String

/-- Fresh engine state as built by the constructor (core.js lines 5-20). -/
def initialEngine (instruction : Option String) : Engine :=
  { messageId := 0
    instruction := instruction
    toolWhitelist := []
    toolSchemas := []
    toolDescriptions := []
    toolCallLog := []
    rejectedCallLog := []
    tools := []
    pendingRequests := []
    buffer := []
    initialized := false
    sessionId := none
    resolutions := []
    outbox := []
    events := [] }

/-- Update-or-append on an association list: the JavaScript assignment
`map[name] = value`. -/
def mapSet {α : Type} (m : List (String × α)) (k : String) (v : α) :
    List (String × α) :=
  match m with
  | [] => [(k, v)]
  | (k1, v1) :: rest =>
    if k1 = k then (k, v) :: rest else (k1, v1) :: mapSet rest k v

/-- Lookup on an association list: reading `map[name]`, `none` standing for
JavaScript `undefined`. -/
def mapGet {α : Type} (m : List (String × α)) (k : String) : Option α :=
  match m with
  | [] => none
  | (k1, v1) :: rest => if k1 = k then some v1 else mapGet rest k

/-- `registerTool` (core.js lines 34-40): adds the name to the whitelist
(`Set.add` keeps the first insertion position and deduplicates) and stores
handler, schema and description under the name (last write wins). -/
def registerTool (st : Engine) (name description inputSchema : String)
    (handler : Handler) : Engine :=
  { st with
    toolWhitelist :=
      if name ∈ st.toolWhitelist then st.toolWhitelist
      else st.toolWhitelist ++ [name]
    tools := mapSet st.tools name handler
    toolSchemas := mapSet st.toolSchemas name inputSchema
    toolDescriptions := mapSet st.toolDescriptions name description }

/-- `generateRequestId` (core.js lines 22-24): `return ++this.messageId`. -/
def generateRequestId (st : Engine) : Engine × Nat :=
  ({ st with messageId := st.messageId + 1 }, st.messageId + 1)

/-- `validateToolCall` (core.js lines 65-78, verbatim also in
src/unnamed/part_001 lines 52-65): a name outside the whitelist appends one
RejectionRecord snapshotting the whitelist and produces the error text
listing the available names; a whitelisted name passes with no state
change. -/
def validateToolCall (now : String) (st : Engine) (toolName : String) :
    Engine × Option String :=
  if toolName ∈ st.toolWhitelist then (st, none)
  else
    ({ st with rejectedCallLog := st.rejectedCallLog ++
        [{ timestamp := now
           attemptedTool := toolName
           reason := "Not in whitelist"
           availableTools := st.toolWhitelist }] },
     some ("Tool not available. Available: " ++
       String.intercalate ", " st.toolWhitelist))

/-- In-place mutation of the final list element:
`this.toolCallLog[this.toolCallLog.length - 1]` updated by reference
(core.js lines 95-97, part_000 lines 142-144). -/
def updateLast {α : Type} (l : List α) (f : α → α) : List α :=
  match l with
  | [] => []
  | [r] => [f r]
  | r :: s :: rest => r :: updateLast (s :: rest) f

/-- `callTool` (core.js lines 80-101, verbatim also in src/unnamed/part_001
lines 67-88): validate, throw on rejection; append a CallRecord with status
executing; run the handler when one is stored, updating the same record in
place to completed with the result attached; a whitelisted name without a
handler throws the distinct unknown-tool error.  A handler failure
propagates and, as in the source, leaves the record at status executing. -/
def callTool (now : String) (st : Engine) (toolName params : String) :
    Engine × Except String String :=
  match validateToolCall now st toolName with
  | (st1, some err) => (st1, Except.error err)
  | (st1, none) =>
    let st2 := { st1 with toolCallLog := st1.toolCallLog ++
      [{ timestamp := now
         toolName := toolName
         params := params
         status := Status.executing
         result := none }] }
    match mapGet st2.tools toolName with
    | some handler =>
      match handler params with
      | Except.ok r =>
        let log2 := updateLast st2.toolCallLog fun rec0 =>
          { rec0 with status := Status.completed, result := some r }
        ({ st2 with toolCallLog := log2 }, Except.ok r)
      | Except.error e => (st2, Except.error e)
    | none => (st2, Except.error ("Unknown tool: " ++ toolName))

/-- Remove the first (leftmost) occurrence of `pat` from `l`, or `none`
when `pat` does not occur. -/
def removeFirstOcc (l pat : List Char) : Option (List Char) :=
  match l with
  | [] => if pat = [] then some [] else none
  | c :: cs =>
    if pat.isPrefixOf (c :: cs) then some ((c :: cs).drop pat.length)
    else (removeFirstOcc cs pat).map (fun r => c :: r)

/-- JavaScript `s.replace(pat, empty)`: removes the first occurrence of
`pat` from `s` (used as `msg.method.replace(quoted tools slash, empty)`,
core.js line 186 and part_001 line 192). -/
def replaceFirst (s pat : String) : String :=
  match removeFirstOcc s.toList pat.toList with
  | some r => String.mk r
  | none => s

/-- JavaScript `s.startsWith(pat)`. -/
def startsWithStr (s pat : String) : Bool :=
  pat.toList.isPrefixOf s.toList

/-- The resolver pattern shared by the response, error and timeout paths
(core.js lines 170-174, 180-184 and 255-260): look the id up in
`pendingRequests`; when present, delete the entry and invoke the stored
resolver with the payload (recorded in the `resolutions` trace); when
absent, do nothing. -/
def resolvePending (st : Engine) (i : Nat) (res : Resolution) : Engine :=
  if i ∈ st.pendingRequests then
    { st with
      pendingRequests := st.pendingRequests.filter (fun j => j ≠ i)
      resolutions := st.resolutions ++ [(i, res)] }
  else st

/-- `createInitializeResponse` (core.js lines 208-219), abstracted to the
advertised tool-name list. -/
def initializeResponse (st : Engine) (id : Option Nat) : OutMsg :=
  OutMsg.initResponse id st.toolWhitelist

/-- `handleToolCall` (core.js lines 193-200): run `callTool` and send back
a JSON-RPC response on success or a code -32603 error on failure. -/
def handleToolCallMsg (now : String) (st : Engine) (id : Option Nat)
    (toolName params : String) : Engine :=
  match callTool now st toolName params with
  | (st1, Except.ok r) =>
    { st1 with outbox := st1.outbox ++ [OutMsg.response id r] }
  | (st1, Except.error e) =>
    { st1 with outbox := st1.outbox ++ [OutMsg.errorResponse id (-32603) e] }

/-- The branch cascade of `handleMessage` on a successfully parsed message
(core.js lines 166-190): initialize handshake; response matching; error
matching; inbound tool call; session update; anything else ignored. -/
def dispatch (now : String) (st : Engine) (m : Msg) : Engine :=
  if m.method = some "initialize" then
    { st with
      outbox := st.outbox ++ [initializeResponse st m.id]
      initialized := true }
  else
    match m.id, m.result, m.error with
    | some i, some r, _ =>
      let st1 := resolvePending st i (Resolution.result r)
      if i = 1 then
        match r.sessionId with
        | some sid =>
          { st1 with sessionId := some sid, events := st1.events ++ ["ready"] }
        | none => st1
      else st1
    | some i, none, some e =>
      resolvePending st i (Resolution.errorPayload e)
    | _, _, _ =>
      match m.method with
      | some meth =>
        if startsWithStr meth "tools/" then
          handleToolCallMsg now st m.id (replaceFirst meth "tools/")
            (m.params.getD "")
        else if meth = "session/update" then
          { st with events := st.events ++ ["update"] }
        else st
      | none => st

/-- `handleMessage` (core.js lines 158-164): attempt a JSON parse of the
line; a parse failure returns with no state change and no error; a parsed
message goes through the branch cascade.  `JSON.parse` is a platform
primitive, passed in as the `parse` oracle. -/
def handleMessage (parse : String → Option Msg) (now : String) (st : Engine)
    (line : String) : Engine :=
  match parse line with
  | none => st
  | some m => dispatch now st m

/-- The loop of `processBuffer` over emitted candidate lines. -/
def handleLines (parse : String → Option Msg) (now : String) (st : Engine)
    (lines : List String) : Engine :=
  lines.foldl (fun s l => handleMessage parse now s l) st

/-- Newline split of `processBuffer` (core.js lines 148-149): complete
lines before the final newline, plus the retained trailing fragment
(`this.buffer = lines.pop()`). -/
def splitNl : List Char → List (List Char) × List Char
  | [] => ([], [])
  | c :: cs =>
    if c = '\n' then ([] :: (splitNl cs).1, (splitNl cs).2)
    else
      match splitNl cs with
      | ([], r) => ([], c :: r)
      | (l :: ls, r) => ((c :: l) :: ls, r)

/-- Whitespace as removed by JavaScript `String.trim`. -/
def isWs (c : Char) : Bool :=
  c = ' ' || c = '\t' || c = '\n' || c = '\r' || c = '\x0b' || c = '\x0c'

/-- JavaScript `line.trim()` on a character list. -/
def trimChars (l : List Char) : List Char :=
  ((l.dropWhile isWs).reverse.dropWhile isWs).reverse

/-- JavaScript `line.trim()`. -/
def trimStr (s : String) : String :=
  String.mk (trimChars s.toList)

/-- JavaScript `s.split(newline)`: every fragment between newlines,
including the final one. -/
def splitLines (s : String) : List String :=
  ((splitNl s.toList).1 ++ [(splitNl s.toList).2]).map
    (fun l => String.mk l)

/-- One step of the message framer: append the chunk to the buffer, split
on newline, retain the final fragment as the new buffer, and emit every
preceding fragment that is non-blank after trimming (core.js lines
113-116 and 147-156). -/
def feed (buffer chunk : List Char) : List Char × List (List Char) :=
  let p := splitNl (buffer ++ chunk)
  (p.2, p.1.filterMap (fun l =>
    let t := trimChars l
    if t = [] then none else some t))

/-- Feeding a sequence of chunks one by one, concatenating the emitted
lines. -/
def feedMany (buffer : List Char) (chunks : List (List Char)) :
    List Char × List (List Char) :=
  match chunks with
  | [] => (buffer, [])
  | c :: cs =>
    let p := feed buffer c
    let q := feedMany p.1 cs
    (q.1, p.2 ++ q.2)

/-- `processBuffer` (core.js lines 147-156) wired to message handling:
split the accumulated buffer, retain the trailing fragment, and handle
each trimmed non-blank complete line. -/
def processBuffer (parse : String → Option Msg) (now : String)
    (st : Engine) : Engine :=
  let p := splitNl st.buffer
  handleLines parse now { st with buffer := p.2 }
    (p.1.filterMap (fun l =>
      let t := trimChars l
      if t = [] then none else some (String.mk t)))

/-- `createSession` (core.js lines 221-231): sends the session-creation
request with the id hard-coded to 1, without consuming the
`generateRequestId` counter. -/
def createSession (st : Engine) : Engine :=
  { st with outbox := st.outbox ++ [OutMsg.request 1 "session/new"] }

/-- The synchronous part of `sendPrompt` (core.js lines 233-254): throw
when no session exists; otherwise allocate a fresh request id from the
counter, store the pending resolver under it (`Map.set`), and send the
prompt request.  The scheduled 120-second timeout is modelled as the
separate `promptTimeoutFire` event. -/
def sendPrompt (st : Engine) (_content : String) :
    Except String (Engine × Nat) :=
  match st.sessionId with
  | none => Except.error "No session. Call start() first."
  | some _ =>
    let p := generateRequestId st
    let st1 := p.1
    let reqId := p.2
    Except.ok
      ({ st1 with
          pendingRequests :=
            if reqId ∈ st1.pendingRequests then st1.pendingRequests
            else st1.pendingRequests ++ [reqId]
          outbox := st1.outbox ++ [OutMsg.request reqId "session/prompt"] },
       reqId)

/-- The 120-second timeout callback scheduled by `sendPrompt` (core.js
lines 255-260): when the id is still pending, delete it and resolve with
the synthetic `\x7btimeout: true\x7d` result; otherwise do nothing. -/
def promptTimeoutFire (st : Engine) (reqId : Nat) : Engine :=
  resolvePending st reqId Resolution.timedOut

/-- External events driving the engine after a prompt is stored: an inbound
parsed line (an unparseable line is the identity by `handleMessage`) or the
firing of the prompt timeout timer. -/
inductive Ev where
  | inbound (now : String) (m : Msg)
  | timeout (reqId : Nat)

/-- One event step. -/
def stepEv (st : Engine) : Ev → Engine
  | Ev.inbound now m => dispatch now st m
  | Ev.timeout reqId => promptTimeoutFire st reqId

/-- Run a sequence of events. -/
def runEvents (st : Engine) (evs : List Ev) : Engine :=
  evs.foldl stepEv st

/-- Number of times the resolver stored under `reqId` has been invoked. -/
def resolvedCount (st : Engine) (reqId : Nat) : Nat :=
  (st.resolutions.filter (fun p => p.1 = reqId)).length

/-- One when `reqId` is still pending, zero otherwise. -/
def pendingBit (st : Engine) (reqId : Nat) : Nat :=
  if reqId ∈ st.pendingRequests then 1 else 0

/-- Conserved quantity of the correlation table: resolver invocations plus
the pending indicator for a given id. -/
def measureOf (st : Engine) (reqId : Nat) : Nat :=
  resolvedCount st reqId + pendingBit st reqId

/-! Batch transport variant, src/unnamed/part_001.  Its `ACPProtocol` class
shares `registerTool`, `validateToolCall` and `callTool` verbatim with
core.js, so those are reused on `Engine`; the batch-only output scanning
and the one-shot `process` promise are embedded below. -/

namespace Batch

/-- A parsed output line as inspected by `parseTextOutput` and
`parseToolCalls` (part_001 lines 90-148): `typ` is the `type` field,
`partText` the nested `part.text`, `paramsTruthy` the JavaScript
truthiness of the `params` field whose payload is kept opaque in
`params`. -/
structure BLine where
  jsonrpc : Option String
  method : Option String
  paramsTruthy : Bool
  params : String
  id : Option Int
  typ : Option String
  partText : Option String
deriving DecidableEq, Repr

/-- A collected tool-call request (part_001 lines 121-125). -/
structure BCall where
  id : Option Int
  method : String
  params : String
deriving DecidableEq, Repr

/-- `parseTextOutput` (part_001 lines 90-107): concatenate `part.text` of
every trimmed non-blank line that parses as a `type: text` envelope with a
truthy text field; parse failures are skipped. -/
def parseTextOutput (parse : String → Option BLine) (output : String) :
    String :=
  (splitLines output).foldl
    (fun text line =>
      let trimmed := trimStr line
      if trimmed = "" then text
      else
        match parse trimmed with
        | none => text
        | some j =>
          match j.typ, j.partText with
          | some "text", some t => if t = "" then text else text ++ t
          | _, _ => text)
    ""

/-- One scanning pass of `parseToolCalls`: collect every trimmed non-blank
line that parses as a JSON-RPC 2.0 message whose method starts with the
tools namespace and whose params field is truthy (part_001 lines 114-128
and, with the identical inline loop body, lines 130-145). -/
def scanLines (parse : String → Option BLine) (s : String) : List BCall :=
  (splitLines s).foldl
    (fun calls line =>
      let trimmed := trimStr line
      if trimmed = "" then calls
      else
        match parse trimmed with
        | none => calls
        | some j =>
          match j.method with
          | some m =>
            if j.jsonrpc = some "2.0" && startsWithStr m "tools/" &&
                j.paramsTruthy then
              calls ++ [{ id := j.id, method := m, params := j.params }]
            else calls
          | none => calls)
    []

/-- `parseToolCalls` (part_001 lines 109-148): one pass over the extracted
assistant text, one pass over the raw output, concatenated with no
deduplication between the passes. -/
def parseToolCalls (parse : String → Option BLine) (output : String) :
    List BCall :=
  scanLines parse (parseTextOutput parse output) ++ scanLines parse output

/-- The execution loop of `process` over the collected calls (part_001
lines 191-197): strip the tools namespace, silently skip non-whitelisted
names, and invoke `callTool` once per remaining occurrence; a thrown
`callTool` error aborts the loop into the surrounding catch. -/
def runBatchCalls (now : String) (st : Engine) (calls : List BCall) :
    Engine × Except String (List (String × String)) :=
  match calls with
  | [] => (st, Except.ok [])
  | call :: rest =>
    let toolName := replaceFirst call.method "tools/"
    if toolName ∈ st.toolWhitelist then
      match callTool now st toolName call.params with
      | (st1, Except.ok r) =>
        match runBatchCalls now st1 rest with
        | (st2, Except.ok results) =>
          (st2, Except.ok ((toolName, r) :: results))
        | (st2, Except.error e) => (st2, Except.error e)
      | (st1, Except.error e) => (st1, Except.error e)
    else runBatchCalls now st rest

/-- How the one-shot promise of `process` (part_001 lines 160-223) can
settle: the close handler resolves with the scraped payload, and the error
and timeout handlers reject. -/
inductive BatchSettle where
  | resolvedPayload (text : String) (toolCalls : List (String × String))
  | rejectedErr (message : String)
deriving DecidableEq, Repr

/-- JavaScript promise settle-once semantics: a second settlement attempt
on an already settled promise is a no-op. -/
def settleOnce (p : Option BatchSettle) (o : BatchSettle) :
    Option BatchSettle :=
  match p with
  | none => some o
  | some x => some x

/-- The 120-second timeout callback of `process` (part_001 lines 219-222):
kill the child and reject the promise with a Timeout error. -/
def batchTimeoutFire (p : Option BatchSettle) : Option BatchSettle :=
  settleOnce p (BatchSettle.rejectedErr "Timeout")

/-- Whether a settled promise was rejected rather than resolved. -/
def settledByRejection : Option BatchSettle → Bool
  | some (BatchSettle.rejectedErr _) => true
  | _ => false

end Batch

/-! Fixed-whitelist variant, src/unnamed/part_000: the same guard with the
whitelist frozen at construction to the single simulative retriever tool,
a CallRecord that stores `params.query`, and a slightly longer rejection
message. -/

namespace P0

/-- Return value of the simulative retriever (part_000 lines 99-109);
`result` is null on the not-found path. -/
structure RetResult where
  success : Bool
  result : Option String
  details : String
deriving DecidableEq, Repr

/-- JavaScript `s.includes(pat)` for non-empty `pat`. -/
def containsSub (s pat : String) : Bool :=
  2 ≤ (s.splitOn pat).length

/-- `simulativeRetriever` (part_000 lines 90-110). -/
def simulativeRetriever (query : String) : RetResult :=
  let lowerQuery := query.toLower
  if (containsSub lowerQuery "taj mahal" &&
      containsSub lowerQuery "main street") &&
     (containsSub lowerQuery "phone" ||
      containsSub lowerQuery "number" ||
      containsSub lowerQuery "contact") then
    { success := true
      result := some "555-0142"
      details := "Found phone number for Taj Mahal on Main Street: 555-0142" }
  else
    { success := false
      result := none
      details := "Information not found in database for query: \"" ++
        query ++ "\"" }

/-- CallRecord of part_000 (lines 133-138): stores the query projection of
the params object. -/
structure CallRecord where
  timestamp : String
  toolName : String
  query : String
  status : Status
  result : Option RetResult
deriving DecidableEq, Repr

/-- The params object passed to part_000 `callTool`, read through its
`query` field (lines 136 and 141). -/
structure Params where
  query : String
deriving DecidableEq, Repr

/-- Instance state of the part_000 `ACPProtocol` class (lines 2-10). -/
structure State where
  messageId : Nat
  toolWhitelist : List String
  toolCallLog : List CallRecord
  rejectedCallLog : List RejectionRecord
  tools : List (String × (String → RetResult))

/-- The part_000 constructor: whitelist and handler map frozen to the
simulative retriever. -/
def initialState : State :=
  { messageId := 0
    toolWhitelist := ["simulative_retriever"]
    toolCallLog := []
    rejectedCallLog := []
    tools := [("simulative_retriever", simulativeRetriever)] }

/-- part_000 `validateToolCall` (lines 112-125): same rejection logic as
core.js with a longer error message. -/
def validateToolCall (now : String) (st : State) (toolName : String) :
    State × Option String :=
  if toolName ∈ st.toolWhitelist then (st, none)
  else
    ({ st with rejectedCallLog := st.rejectedCallLog ++
        [{ timestamp := now
           attemptedTool := toolName
           reason := "Not in whitelist"
           availableTools := st.toolWhitelist }] },
     some ("Tool not available. Only these tools are available: " ++
       String.intercalate ", " st.toolWhitelist))

/-- part_000 `callTool` (lines 127-148): validate, throw on rejection,
append an executing record holding `params.query`, call the handler
synchronously with `params.query`, update the record in place to completed
with the result attached. -/
def callTool (now : String) (st : State) (toolName : String)
    (params : Params) : State × Except String RetResult :=
  match validateToolCall now st toolName with
  | (st1, some err) => (st1, Except.error err)
  | (st1, none) =>
    let st2 := { st1 with toolCallLog := st1.toolCallLog ++
      [{ timestamp := now
         toolName := toolName
         query := params.query
         status := Status.executing
         result := none }] }
    match mapGet st2.tools toolName with
    | some handler =>
      let r := handler params.query
      let log2 := updateLast st2.toolCallLog fun rec0 =>
        { rec0 with status := Status.completed, result := some r }
      ({ st2 with toolCallLog := log2 }, Except.ok r)
    | none => (st2, Except.error ("Unknown tool: " ++ toolName))

end P0

/-! Concrete engine states and inputs used to evaluate the embedded code
on specific scenarios. -/

/-- A demo handler that always succeeds. -/
def demoHandler : Handler := fun _ => Except.ok "found"

/-- An engine with the single registered tool `lookup`. -/
def demoEngine : Engine :=
  registerTool (initialEngine none) "lookup"
    "Retrieve business information" "schema" demoHandler

/-- A handler that always fails. -/
def failingHandler : Handler := fun _ => Except.error "handler boom"

/-- An engine whose single registered tool has a failing handler. -/
def failingEngine : Engine :=
  registerTool (initialEngine none) "flaky" "Always fails" "schema"
    failingHandler

/-- A handler echoing its params payload back. -/
def echoHandler : Handler := fun p => Except.ok p

/-- An engine with the single registered tool `echo`. -/
def echoEngine : Engine :=
  registerTool (initialEngine none) "echo" "Echo params" "schema" echoHandler

/-- JSON string escaping of double quotes, used to build the envelope line
below. -/
def escapeQuotes (s : String) : String :=
  String.mk (s.toList.foldr
    (fun c acc => if c = '"' then '\\' :: '"' :: acc else c :: acc) [])

/-- A JSON-RPC tool-call line as the agent would print it raw. -/
def callLine : String :=
  "\x7b\"jsonrpc\":\"2.0\",\"id\":7,\"method\":\"tools/echo\",\"params\":\x7b\"q\":\"x\"\x7d\x7d"

/-- The same call wrapped in a `type: text` assistant-output envelope, so
the extracted-text pass sees it too. -/
def envLine : String :=
  "\x7b\"type\":\"text\",\"part\":\x7b\"text\":\"" ++ escapeQuotes callLine ++
    "\"\x7d\x7d"

/-- Captured agent output containing the call both inside the text
envelope and as a raw line. -/
def cxOutput : String := envLine ++ "\n" ++ callLine

/-- The call as collected by the scanner. -/
def cxCall : Batch.BCall :=
  { id := some 7, method := "tools/echo", params := "\x7b\"q\":\"x\"\x7d" }

/-- The JSON parse oracle restricted to the two lines of `cxOutput`: the
raw call line parses to the JSON-RPC request, the envelope line to the
`type: text` object whose `part.text` is the unescaped call line, and
everything else fails to parse. -/
def cxParse : String → Option Batch.BLine := fun s =>
  if s = callLine then
    some { jsonrpc := some "2.0", method := some "tools/echo",
           paramsTruthy := true, params := "\x7b\"q\":\"x\"\x7d",
           id := some 7, typ := none, partText := none }
  else if s = envLine then
    some { jsonrpc := none, method := none, paramsTruthy := false,
           params := "", id := none, typ := some "text",
           partText := some callLine }
  else none

/-- Engine state right after `createSession` was scheduled from `start`. -/
def startedEngine : Engine := createSession (initialEngine none)

/-- State after the agent answered the session-creation request (id 1)
with a session id: the ready transition fired. -/
def sessionReadyEngine : Engine :=
  dispatch "t0" startedEngine
    { method := none, id := some 1,
      result := some { sessionId := some "sess-1", payload := "" },
      error := none, params := none }

/-- The request id allocated by the first `sendPrompt` after the session
became ready. -/
def firstPromptId : Nat :=
  match sendPrompt sessionReadyEngine "hello" with
  | Except.ok q => q.2
  | Except.error _ => 0

/-- State right after the first prompt was sent and its pending resolver
stored. -/
def promptedEngine : Engine :=
  match sendPrompt sessionReadyEngine "hello" with
  | Except.ok q => q.1
  | Except.error _ => sessionReadyEngine

/-- A response to request id 1 arriving late. -/
def lateResponse : Msg :=
  { method := none, id := some 1,
    result := some { sessionId := none, payload := "late answer" },
    error := none, params := none }

/-- A parse oracle on which every line fails to parse. -/
def parseNone : String → Option Msg := fun _ => none

/-! Helper lemmas about the embedded operations. -/

theorem updateLast_cons_of_ne_nil {α : Type} (a : α) (l : List α)
    (f : α → α) (h : l ≠ []) :
    updateLast (a :: l) f = a :: updateLast l f := by
  cases l with
  | nil => exact absurd rfl h
  | cons b bs => rfl

theorem updateLast_append_single {α : Type} (l : List α) (r : α)
    (f : α → α) : updateLast (l ++ [r]) f = l ++ [f r] := by
  induction l with
  | nil => rfl
  | cons a as ih =>
    rw [List.cons_append, updateLast_cons_of_ne_nil a (as ++ [r]) f
      (by simp), ih]
    rfl

/-- Equation for `callTool` on a name outside the whitelist: one
RejectionRecord is appended and the descriptive error thrown; nothing else
changes. -/
theorem callTool_reject_eq (now : String) (st : Engine)
    (toolName params : String) (h : toolName ∉ st.toolWhitelist) :
    callTool now st toolName params =
      ({ st with rejectedCallLog := st.rejectedCallLog ++
          [{ timestamp := now
             attemptedTool := toolName
             reason := "Not in whitelist"
             availableTools := st.toolWhitelist }] },
       Except.error ("Tool not available. Available: " ++
         String.intercalate ", " st.toolWhitelist)) := by
  unfold callTool validateToolCall
  rw [if_neg h]

/-- Equation for `callTool` on a whitelisted name whose handler succeeds:
exactly one CallRecord is appended, completed with the result attached,
and the result is returned. -/
theorem callTool_success_eq (now : String) (st : Engine)
    (toolName params : String) (handler : Handler) (r : String)
    (hw : toolName ∈ st.toolWhitelist)
    (hh : mapGet st.tools toolName = some handler)
    (hr : handler params = Except.ok r) :
    callTool now st toolName params =
      ({ st with toolCallLog := st.toolCallLog ++
          [{ timestamp := now
             toolName := toolName
             params := params
             status := Status.completed
             result := some r }] },
       Except.ok r) := by
  unfold callTool validateToolCall
  rw [if_pos hw]
  dsimp only
  rw [hh]
  dsimp only
  rw [hr]
  dsimp only
  rw [updateLast_append_single]

/-- Equation for `callTool` on a whitelisted name whose handler fails: the
handler error propagates and the appended CallRecord stays at status
executing. -/
theorem callTool_handler_error_eq (now : String) (st : Engine)
    (toolName params : String) (handler : Handler) (e : String)
    (hw : toolName ∈ st.toolWhitelist)
    (hh : mapGet st.tools toolName = some handler)
    (hr : handler params = Except.error e) :
    callTool now st toolName params =
      ({ st with toolCallLog := st.toolCallLog ++
          [{ timestamp := now
             toolName := toolName
             params := params
             status := Status.executing
             result := none }] },
       Except.error e) := by
  unfold callTool validateToolCall
  rw [if_pos hw]
  dsimp only
  rw [hh]
  dsimp only
  rw [hr]

/-- Equation for `callTool` on a whitelisted name with no stored handler:
the defensive unknown-tool error, distinct from the whitelist rejection. -/
theorem callTool_unknown_eq (now : String) (st : Engine)
    (toolName params : String)
    (hw : toolName ∈ st.toolWhitelist)
    (hh : mapGet st.tools toolName = none) :
    callTool now st toolName params =
      ({ st with toolCallLog := st.toolCallLog ++
          [{ timestamp := now
             toolName := toolName
             params := params
             status := Status.executing
             result := none }] },
       Except.error ("Unknown tool: " ++ toolName)) := by
  unfold callTool validateToolCall
  rw [if_pos hw]
  dsimp only
  rw [hh]

/-- `callTool` never touches the whitelist, the handler map, the pending
table or the resolution trace. -/
theorem callTool_preserves (now : String) (st : Engine)
    (toolName params : String) :
    (callTool now st toolName params).1.pendingRequests =
        st.pendingRequests ∧
    (callTool now st toolName params).1.resolutions = st.resolutions ∧
    (callTool now st toolName params).1.toolWhitelist = st.toolWhitelist ∧
    (callTool now st toolName params).1.tools = st.tools := by
  by_cases h : toolName ∈ st.toolWhitelist
  · cases hg : mapGet st.tools toolName with
    | none =>
      rw [callTool_unknown_eq now st toolName params h hg]
      exact ⟨rfl, rfl, rfl, rfl⟩
    | some handler =>
      cases hr : handler params with
      | ok r =>
        rw [callTool_success_eq now st toolName params handler r h hg hr]
        exact ⟨rfl, rfl, rfl, rfl⟩
      | error e =>
        rw [callTool_handler_error_eq now st toolName params handler e h hg hr]
        exact ⟨rfl, rfl, rfl, rfl⟩
  · rw [callTool_reject_eq now st toolName params h]
    exact ⟨rfl, rfl, rfl, rfl⟩

/-- Equation for the part_000 `callTool` on a non-whitelisted name. -/
theorem p0_callTool_reject_eq (now : String) (st : P0.State)
    (toolName : String) (params : P0.Params)
    (h : toolName ∉ st.toolWhitelist) :
    P0.callTool now st toolName params =
      ({ st with rejectedCallLog := st.rejectedCallLog ++
          [{ timestamp := now
             attemptedTool := toolName
             reason := "Not in whitelist"
             availableTools := st.toolWhitelist }] },
       Except.error ("Tool not available. Only these tools are available: " ++
         String.intercalate ", " st.toolWhitelist)) := by
  unfold P0.callTool P0.validateToolCall
  rw [if_neg h]

/-- Equation for the part_000 `callTool` on a whitelisted name with a
stored handler (part_000 handlers are synchronous and total). -/
theorem p0_callTool_success_eq (now : String) (st : P0.State)
    (toolName : String) (params : P0.Params)
    (handler : String → P0.RetResult)
    (hw : toolName ∈ st.toolWhitelist)
    (hh : mapGet st.tools toolName = some handler) :
    P0.callTool now st toolName params =
      ({ st with toolCallLog := st.toolCallLog ++
          [{ timestamp := now
             toolName := toolName
             query := params.query
             status := Status.completed
             result := some (handler params.query) }] },
       Except.ok (handler params.query)) := by
  unfold P0.callTool P0.validateToolCall
  rw [if_pos hw]
  dsimp only
  rw [hh]
  dsimp only
  rw [updateLast_append_single]

/-! Conservation of the pending-request correlation measure. -/

theorem mem_filter_ne_iff (l : List Nat) (i rid : Nat) :
    rid ∈ l.filter (fun j => j ≠ i) ↔ rid ∈ l ∧ rid ≠ i := by
  simp [List.mem_filter]

theorem resCount_append_single (l : List (Nat × Resolution)) (i rid : Nat)
    (res : Resolution) :
    ((l ++ [(i, res)]).filter (fun p => p.1 = rid)).length =
      (l.filter (fun p => p.1 = rid)).length +
        (if i = rid then 1 else 0) := by
  rw [List.filter_append]
  by_cases h : i = rid <;> simp [h]

/-- Invoking a stored resolver moves one unit from the pending indicator
to the resolution count: their sum is unchanged. -/
theorem resolvePending_measure (st : Engine) (i : Nat) (res : Resolution)
    (rid : Nat) :
    measureOf (resolvePending st i res) rid = measureOf st rid := by
  unfold resolvePending measureOf resolvedCount pendingBit
  by_cases hi : i ∈ st.pendingRequests
  · rw [if_pos hi]
    dsimp only
    rw [resCount_append_single]
    by_cases he : i = rid
    · subst he
      have h1 : i ∉ st.pendingRequests.filter (fun j => j ≠ i) := by
        simp [mem_filter_ne_iff]
      rw [if_pos rfl, if_neg h1, if_pos hi]
    · have h2 : rid ∈ st.pendingRequests.filter (fun j => j ≠ i) ↔
          rid ∈ st.pendingRequests := by
        rw [mem_filter_ne_iff]
        exact ⟨fun h => h.1, fun h => ⟨h, fun hc => he hc.symm⟩⟩
      rw [if_neg he]
      by_cases hr : rid ∈ st.pendingRequests
      · rw [if_pos (h2.mpr hr), if_pos hr]
      · rw [if_neg (fun hc => hr (h2.mp hc)), if_neg hr]
  · rw [if_neg hi]

/-- After the resolver path runs for an id, that id is no longer
pending. -/
theorem resolvePending_not_pending (st : Engine) (rid : Nat)
    (res : Resolution) :
    rid ∉ (resolvePending st rid res).pendingRequests := by
  unfold resolvePending
  by_cases hi : rid ∈ st.pendingRequests
  · rw [if_pos hi]
    simp [mem_filter_ne_iff]
  · rw [if_neg hi]
    exact hi

/-- Field-projection helper: the state built by `handleToolCallMsg` keeps
pending table and resolutions of `callTool`, hence of the input state. -/
theorem handleToolCallMsg_measure (now : String) (st : Engine)
    (id : Option Nat) (toolName params : String) (rid : Nat) :
    measureOf (handleToolCallMsg now st id toolName params) rid =
      measureOf st rid := by
  unfold handleToolCallMsg
  have hp := callTool_preserves now st toolName params
  cases hc : callTool now st toolName params with
  | mk st1 res =>
    rw [hc] at hp
    cases res with
    | ok r =>
      dsimp only
      unfold measureOf resolvedCount pendingBit
      rw [show ({ st1 with outbox := st1.outbox ++ [OutMsg.response id r] }
          : Engine).resolutions = st1.resolutions from rfl]
      rw [show ({ st1 with outbox := st1.outbox ++ [OutMsg.response id r] }
          : Engine).pendingRequests = st1.pendingRequests from rfl]
      rw [hp.1, hp.2.1]
    | error e =>
      dsimp only
      unfold measureOf resolvedCount pendingBit
      rw [show ({ st1 with outbox := st1.outbox ++
            [OutMsg.errorResponse id (-32603) e] } : Engine).resolutions =
          st1.resolutions from rfl]
      rw [show ({ st1 with outbox := st1.outbox ++
            [OutMsg.errorResponse id (-32603) e] } : Engine).pendingRequests =
          st1.pendingRequests from rfl]
      rw [hp.1, hp.2.1]

/-- Every branch of the inbound-message cascade conserves the correlation
measure of any request id: only the resolver pattern touches the pending
table and the resolution trace, and it conserves the sum. -/
theorem dispatch_measure (now : String) (st : Engine) (m : Msg)
    (rid : Nat) :
    measureOf (dispatch now st m) rid = measureOf st rid := by
  unfold dispatch
  split
  · rfl
  · split
    · dsimp only
      split
      · split
        · exact resolvePending_measure st _ _ rid
        · exact resolvePending_measure st _ _ rid
      · exact resolvePending_measure st _ _ rid
    · exact resolvePending_measure st _ _ rid
    · split
      · split
        · exact handleToolCallMsg_measure now st m.id _ (m.params.getD "") rid
        · split
          · rfl
          · rfl
      · rfl

/-- One event step conserves the correlation measure. -/
theorem stepEv_measure (st : Engine) (ev : Ev) (rid : Nat) :
    measureOf (stepEv st ev) rid = measureOf st rid := by
  cases ev with
  | inbound now m => exact dispatch_measure now st m rid
  | timeout reqId =>
    exact resolvePending_measure st reqId Resolution.timedOut rid

/-- Any event sequence conserves the correlation measure. -/
theorem runEvents_measure (st : Engine) (evs : List Ev) (rid : Nat) :
    measureOf (runEvents st evs) rid = measureOf st rid := by
  induction evs generalizing st with
  | nil => rfl
  | cons ev rest ih =>
    unfold runEvents at *
    rw [List.foldl_cons, ih (stepEv st ev), stepEv_measure]

/-! Framer lemmas: the newline split against chunk boundaries. -/

theorem splitNl_no_nl (l : List Char) (h : '\n' ∉ l) :
    splitNl l = ([], l) := by
  induction l with
  | nil => rfl
  | cons c cs ih =>
    have hc : c ≠ '\n' := fun hx => h (hx ▸ List.mem_cons_self c cs)
    have hcs : '\n' ∉ cs := fun hx => h (List.mem_cons_of_mem c hx)
    unfold splitNl
    rw [if_neg hc, ih hcs]

theorem splitNl_rem_no_nl (l : List Char) : '\n' ∉ (splitNl l).2 := by
  induction l with
  | nil => simp [splitNl]
  | cons c cs ih =>
    unfold splitNl
    by_cases hc : c = '\n'
    · rw [if_pos hc]
      exact ih
    · rw [if_neg hc]
      cases hs : splitNl cs with
      | mk lines r =>
        cases lines with
        | nil =>
          dsimp only
          intro hmem
          rcases List.mem_cons.mp hmem with h1 | h2
          · exact hc h1.symm
          · have hr := ih
            rw [hs] at hr
            exact hr h2
        | cons l0 ls =>
          dsimp only
          have hr := ih
          rw [hs] at hr
          exact hr

theorem splitNl_append (x y : List Char) :
    splitNl (x ++ y) =
      ((splitNl x).1 ++ (splitNl ((splitNl x).2 ++ y)).1,
       (splitNl ((splitNl x).2 ++ y)).2) := by
  induction x with
  | nil => simp [splitNl]
  | cons c cs ih =>
    rw [List.cons_append]
    by_cases hc : c = '\n'
    · subst hc
      simp only [splitNl, if_pos rfl, ih]
      cases hs : splitNl cs with
      | mk lines r => simp
    · simp only [splitNl, if_neg hc, ih]
      cases hs : splitNl cs with
      | mk lines r =>
        cases lines with
        | nil =>
          dsimp only
          rw [List.cons_append]
          simp only [splitNl, if_neg hc]
          cases hp : splitNl (r ++ y) with
          | mk plines pr =>
            cases plines with
            | nil => simp
            | cons p0 ps => simp
        | cons l0 ls =>
          dsimp only
          cases hp : splitNl (r ++ y) with
          | mk plines pr => simp

theorem feed_append (b x y : List Char) :
    feed b (x ++ y) =
      ((feed (feed b x).1 y).1,
       (feed b x).2 ++ (feed (feed b x).1 y).2) := by
  unfold feed
  dsimp only
  rw [← List.append_assoc, splitNl_append (b ++ x) y]
  dsimp only
  rw [List.filterMap_append]

/-! Claim theorems. -/

/-- C1: for every tool name not present in the whitelist, `callTool`
rejects with the descriptive error listing the currently available tool
names and appends exactly one RejectionRecord whose availableTools field
equals the whitelist at call time; the full-state equation shows that the
registered handler is never executed (no CallRecord appears and the
outcome is the rejection error regardless of the stored handlers).  The
first conjunct covers the core.js engine (shared verbatim by part_001),
the second the part_000 variant with its longer message. -/
theorem invoke_rejects_nonwhitelisted_tool :
    (∀ (now : String) (st : Engine) (toolName params : String),
      toolName ∉ st.toolWhitelist →
      callTool now st toolName params =
        ({ st with rejectedCallLog := st.rejectedCallLog ++
            [{ timestamp := now
               attemptedTool := toolName
               reason := "Not in whitelist"
               availableTools := st.toolWhitelist }] },
         Except.error ("Tool not available. Available: " ++
           String.intercalate ", " st.toolWhitelist))) ∧
    (∀ (now : String) (st : P0.State) (toolName : String)
        (params : P0.Params),
      toolName ∉ st.toolWhitelist →
      P0.callTool now st toolName params =
        ({ st with rejectedCallLog := st.rejectedCallLog ++
            [{ timestamp := now
               attemptedTool := toolName
               reason := "Not in whitelist"
               availableTools := st.toolWhitelist }] },
         Except.error
           ("Tool not available. Only these tools are available: " ++
             String.intercalate ", " st.toolWhitelist))) :=
  ⟨fun now st toolName params h =>
    callTool_reject_eq now st toolName params h,
   fun now st toolName params h =>
    p0_callTool_reject_eq now st toolName params h⟩

/-- C1 witness: the spec scenario, invoking `delete_everything` against a
whitelist holding only `lookup` (and against the part_000 fixed
whitelist). -/
theorem invoke_rejects_nonwhitelisted_tool_wit :
    callTool "t0" demoEngine "delete_everything" "x" =
      ({ demoEngine with rejectedCallLog := demoEngine.rejectedCallLog ++
          [{ timestamp := "t0"
             attemptedTool := "delete_everything"
             reason := "Not in whitelist"
             availableTools := demoEngine.toolWhitelist }] },
       Except.error ("Tool not available. Available: " ++
         String.intercalate ", " demoEngine.toolWhitelist)) ∧
    P0.callTool "t0" P0.initialState "delete_everything" { query := "x" } =
      ({ P0.initialState with rejectedCallLog :=
          P0.initialState.rejectedCallLog ++
          [{ timestamp := "t0"
             attemptedTool := "delete_everything"
             reason := "Not in whitelist"
             availableTools := P0.initialState.toolWhitelist }] },
       Except.error
         ("Tool not available. Only these tools are available: " ++
           String.intercalate ", " P0.initialState.toolWhitelist)) :=
  ⟨invoke_rejects_nonwhitelisted_tool.1 "t0" demoEngine "delete_everything"
     "x" (by decide),
   invoke_rejects_nonwhitelisted_tool.2 "t0" P0.initialState
     "delete_everything" { query := "x" } (by decide)⟩

/-- C2: for every registered tool (name in the whitelist with a stored
handler) whose handler succeeds on the given params, `callTool` appends
exactly one CallRecord — written with status executing and updated in
place to status completed with the result attached, as visible in the
definition of `callTool` — and returns the handler result.  First
conjunct core.js/part_001, second conjunct part_000 (whose handlers are
synchronous and total). -/
theorem invoke_registered_tool_completes :
    (∀ (now : String) (st : Engine) (toolName params : String)
        (handler : Handler) (r : String),
      toolName ∈ st.toolWhitelist →
      mapGet st.tools toolName = some handler →
      handler params = Except.ok r →
      callTool now st toolName params =
        ({ st with toolCallLog := st.toolCallLog ++
            [{ timestamp := now
               toolName := toolName
               params := params
               status := Status.completed
               result := some r }] },
         Except.ok r)) ∧
    (∀ (now : String) (st : P0.State) (toolName : String)
        (params : P0.Params) (handler : String → P0.RetResult),
      toolName ∈ st.toolWhitelist →
      mapGet st.tools toolName = some handler →
      P0.callTool now st toolName params =
        ({ st with toolCallLog := st.toolCallLog ++
            [{ timestamp := now
               toolName := toolName
               query := params.query
               status := Status.completed
               result := some (handler params.query) }] },
         Except.ok (handler params.query))) :=
  ⟨fun now st toolName params handler r hw hh hr =>
    callTool_success_eq now st toolName params handler r hw hh hr,
   fun now st toolName params handler hw hh =>
    p0_callTool_success_eq now st toolName params handler hw hh⟩

/-- C2 witness: invoking the registered `lookup` tool, and the part_000
simulative retriever. -/
theorem invoke_registered_tool_completes_wit :
    callTool "t0" demoEngine "lookup" "q" =
      ({ demoEngine with toolCallLog := demoEngine.toolCallLog ++
          [{ timestamp := "t0"
             toolName := "lookup"
             params := "q"
             status := Status.completed
             result := some "found" }] },
       Except.ok "found") ∧
    P0.callTool "t0" P0.initialState "simulative_retriever"
        { query := "anything" } =
      ({ P0.initialState with toolCallLog :=
          P0.initialState.toolCallLog ++
          [{ timestamp := "t0"
             toolName := "simulative_retriever"
             query := "anything"
             status := Status.completed
             result := some (P0.simulativeRetriever "anything") }] },
       Except.ok (P0.simulativeRetriever "anything")) :=
  ⟨invoke_registered_tool_completes.1 "t0" demoEngine "lookup" "q"
     demoHandler "found" (by decide) rfl rfl,
   invoke_registered_tool_completes.2 "t0" P0.initialState
     "simulative_retriever" { query := "anything" } P0.simulativeRetriever
     (by decide) rfl⟩

/-- C3: evaluation of the embedded code at the failing run.  The
session-creation request is sent with the hard-coded id 1 without
consuming the `generateRequestId` counter, and the counter (starting at
zero) hands the very first prompt the id 1 as well: the id sequence of
one engine instance repeats id 1, so ids are neither strictly increasing
across all outbound requests nor is id 1 reserved for session
creation. -/
theorem session_and_first_prompt_both_use_id_one :
    startedEngine.outbox = [OutMsg.request 1 "session/new"] ∧
    firstPromptId = 1 := by
  decide

/-- C4: a stored PendingRequest is resolved exactly once.  Starting from
any state in which the id is pending and unresolved, any interleaving of
inbound messages and timer firings invokes its resolver at most once; it
has been invoked exactly once precisely when the id left the pending
table, and once the timeout for the id has fired (at the end of any such
interleaving, covering a late response that arrived after the timeout
already resolved the request) the count is exactly one — the losing path
is a no-op. -/
theorem pending_prompt_resolved_exactly_once (st : Engine) (reqId : Nat)
    (evs : List Ev) (hp : reqId ∈ st.pendingRequests)
    (h0 : resolvedCount st reqId = 0) :
    resolvedCount (runEvents st evs) reqId ≤ 1 ∧
    (resolvedCount (runEvents st evs) reqId = 1 ↔
      reqId ∉ (runEvents st evs).pendingRequests) ∧
    resolvedCount (runEvents st (evs ++ [Ev.timeout reqId])) reqId = 1 := by
  have hms : measureOf st reqId = 1 := by
    unfold measureOf pendingBit
    rw [h0, if_pos hp]
  have h1 : measureOf (runEvents st evs) reqId = 1 := by
    rw [runEvents_measure]
    exact hms
  refine ⟨?_, ?_, ?_⟩
  · unfold measureOf at h1
    omega
  · unfold measureOf pendingBit at h1
    by_cases hpend : reqId ∈ (runEvents st evs).pendingRequests
    · rw [if_pos hpend] at h1
      exact ⟨fun hc => by omega, fun hc => absurd hpend hc⟩
    · rw [if_neg hpend] at h1
      exact ⟨fun _ => hpend, fun _ => by omega⟩
  · have h2 : measureOf (runEvents st (evs ++ [Ev.timeout reqId])) reqId
        = 1 := by
      rw [runEvents_measure]
      exact hms
    have h3 : runEvents st (evs ++ [Ev.timeout reqId]) =
        stepEv (runEvents st evs) (Ev.timeout reqId) := by
      unfold runEvents
      rw [List.foldl_append]
      rfl
    have h4 : reqId ∉
        (runEvents st (evs ++ [Ev.timeout reqId])).pendingRequests := by
      rw [h3]
      exact resolvePending_not_pending (runEvents st evs) reqId
        Resolution.timedOut
    unfold measureOf pendingBit at h2
    rw [if_neg h4] at h2
    omega

/-- C4 witness: the engine right after the first prompt was stored, hit
by its timeout and then a late response to the same id. -/
theorem pending_prompt_resolved_exactly_once_wit :
    resolvedCount
        (runEvents promptedEngine
          [Ev.timeout 1, Ev.inbound "t2" lateResponse]) 1 ≤ 1 ∧
    (resolvedCount
        (runEvents promptedEngine
          [Ev.timeout 1, Ev.inbound "t2" lateResponse]) 1 = 1 ↔
      1 ∉ (runEvents promptedEngine
          [Ev.timeout 1, Ev.inbound "t2" lateResponse]).pendingRequests) ∧
    resolvedCount
        (runEvents promptedEngine
          ([Ev.timeout 1, Ev.inbound "t2" lateResponse] ++
            [Ev.timeout 1])) 1 = 1 :=
  pending_prompt_resolved_exactly_once promptedEngine 1
    [Ev.timeout 1, Ev.inbound "t2" lateResponse] (by decide) (by decide)

/-- C5 counterexample: the claim states that in both transport variants a
prompt hitting the 120-second timeout resolves with the degraded result
and does not reject; but the batch variant timeout callback settles the
one-shot promise by rejection with a Timeout error, not by resolution. -/
theorem batch_prompt_timeout_rejects :
    Batch.batchTimeoutFire none =
      some (Batch.BatchSettle.rejectedErr "Timeout") ∧
    Batch.settledByRejection (Batch.batchTimeoutFire none) = true :=
  ⟨rfl, rfl⟩

/-- C5 amended: in the interactive variant a prompt whose id is still
pending when the 120-second timer fires is resolved — not rejected — with
the synthetic timeout object, while in the batch variant the 120-second
timer rejects the process promise with a Timeout error. -/
theorem prompt_timeout_resolves_interactive_rejects_batch :
    (∀ (st : Engine) (reqId : Nat), reqId ∈ st.pendingRequests →
      promptTimeoutFire st reqId =
        { st with
          pendingRequests := st.pendingRequests.filter (fun j => j ≠ reqId)
          resolutions := st.resolutions ++ [(reqId, Resolution.timedOut)] }) ∧
    Batch.batchTimeoutFire none =
      some (Batch.BatchSettle.rejectedErr "Timeout") := by
  constructor
  · intro st reqId h
    unfold promptTimeoutFire resolvePending
    rw [if_pos h]
  · rfl

/-- C5 witness: the prompt stored by `sendPrompt` hit by its timeout. -/
theorem prompt_timeout_resolves_interactive_rejects_batch_wit :
    promptTimeoutFire promptedEngine 1 =
      { promptedEngine with
        pendingRequests :=
          promptedEngine.pendingRequests.filter (fun j => j ≠ 1)
        resolutions :=
          promptedEngine.resolutions ++ [(1, Resolution.timedOut)] } :=
  prompt_timeout_resolves_interactive_rejects_batch.1 promptedEngine 1
    (by decide)

/-- C6: evaluation of the embedded code at the failing input.  The failing
handler propagates its error to the caller as a distinguishable error
(first conjunct), but the CallRecord appended for the invocation stays at
status executing forever — `callTool` never updates it to a terminal
status on the failure path. -/
theorem handler_failure_leaves_record_executing :
    (callTool "t0" failingEngine "flaky" "x").2 =
      Except.error "handler boom" ∧
    (callTool "t0" failingEngine "flaky" "x").1.toolCallLog =
      [{ timestamp := "t0"
         toolName := "flaky"
         params := "x"
         status := Status.executing
         result := none }] :=
  ⟨rfl, rfl⟩

set_option maxRecDepth 20000 in
/-- C7 counterexample: a qualifying tool call appearing both inside a
text envelope (extracted-text pass) and as a raw output line (raw pass)
is collected twice by `parseToolCalls` and the execution loop runs it
twice — two CallRecords — contradicting the claimed deduplication to at
most one execution. -/
theorem batch_duplicate_call_executes_twice :
    Batch.parseToolCalls cxParse cxOutput = [cxCall, cxCall] ∧
    (Batch.runBatchCalls "t0" echoEngine
        (Batch.parseToolCalls cxParse cxOutput)).1.toolCallLog.length
      = 2 := by
  constructor
  · decide
  · decide

/-- C7 amended: the two scanning passes of the Batch Output Parser are
concatenated with no deduplication between them, and the execution loop
invokes the guard once per collected whitelisted occurrence — so a
qualifying call that appears in both passes is executed once per pass. -/
theorem batch_two_pass_scan_has_no_dedup :
    (∀ (parse : String → Option Batch.BLine) (output : String),
      Batch.parseToolCalls parse output =
        Batch.scanLines parse (Batch.parseTextOutput parse output) ++
          Batch.scanLines parse output) ∧
    (∀ (now : String) (st : Engine) (calls : List Batch.BCall),
      (∀ c ∈ calls, ∃ handler r,
        replaceFirst c.method "tools/" ∈ st.toolWhitelist ∧
        mapGet st.tools (replaceFirst c.method "tools/") = some handler ∧
        handler c.params = Except.ok r) →
      (Batch.runBatchCalls now st calls).1.toolCallLog.length =
        st.toolCallLog.length + calls.length) := by
  constructor
  · intro parse output
    rfl
  · intro now st calls
    induction calls generalizing st with
    | nil =>
      intro _
      rfl
    | cons c rest ih =>
      intro hall
      obtain ⟨handler, r, hw, hh, hr⟩ := hall c (List.mem_cons_self c rest)
      unfold Batch.runBatchCalls
      dsimp only
      rw [if_pos hw]
      rw [callTool_success_eq now st (replaceFirst c.method "tools/")
        c.params handler r hw hh hr]
      dsimp only
      have hrest : ∀ c2 ∈ rest, ∃ handler2 r2,
          replaceFirst c2.method "tools/" ∈
            ({ st with toolCallLog := st.toolCallLog ++
              [{ timestamp := now
                 toolName := replaceFirst c.method "tools/"
                 params := c.params
                 status := Status.completed
                 result := some r }] } : Engine).toolWhitelist ∧
          mapGet ({ st with toolCallLog := st.toolCallLog ++
              [{ timestamp := now
                 toolName := replaceFirst c.method "tools/"
                 params := c.params
                 status := Status.completed
                 result := some r }] } : Engine).tools
              (replaceFirst c2.method "tools/") = some handler2 ∧
          handler2 c2.params = Except.ok r2 :=
        fun c2 hc2 => hall c2 (List.mem_cons_of_mem c hc2)
      have hlen := ih _ hrest
      cases hrec : Batch.runBatchCalls now
          { st with toolCallLog := st.toolCallLog ++
            [{ timestamp := now
               toolName := replaceFirst c.method "tools/"
               params := c.params
               status := Status.completed
               result := some r }] } rest with
      | mk st2 res =>
        rw [hrec] at hlen
        dsimp only at hlen
        cases res with
        | ok results =>
          dsimp only
          rw [hlen]
          simp
          omega
        | error e =>
          dsimp only
          rw [hlen]
          simp
          omega

set_option maxRecDepth 20000 in
/-- C7 witness for the amended theorem: executing the duplicated
collected call list appends one CallRecord per occurrence. -/
theorem batch_two_pass_scan_has_no_dedup_wit :
    (Batch.runBatchCalls "t0" echoEngine [cxCall, cxCall]).1.toolCallLog.length
      = echoEngine.toolCallLog.length + 2 :=
  batch_two_pass_scan_has_no_dedup.2 "t0" echoEngine [cxCall, cxCall]
    (by
      intro c hc
      have hc2 : c = cxCall ∨ c = cxCall ∨ False := by
        simpa using hc
      rcases hc2 with h | h | h
      · subst h
        exact ⟨echoHandler, "\x7b\"q\":\"x\"\x7d", by decide, rfl, rfl⟩
      · subst h
        exact ⟨echoHandler, "\x7b\"q\":\"x\"\x7d", by decide, rfl, rfl⟩
      · exact absurd h (fun hf => hf))

/-- C8: feeding the message framer an input split at any chunk boundaries
yields exactly the same emitted candidate lines — in the same order — and
the same retained trailing fragment as feeding the whole input in one
chunk, for every framer state whose retained fragment is newline-free
(true of the initial empty buffer and preserved by every feed). -/
theorem framer_chunk_boundary_invariance (buffer : List Char)
    (chunks : List (List Char)) (hbuf : '\n' ∉ buffer) :
    feedMany buffer chunks = feed buffer chunks.flatten := by
  induction chunks generalizing buffer with
  | nil =>
    unfold feedMany feed
    rw [List.flatten_nil, List.append_nil, splitNl_no_nl buffer hbuf]
    rfl
  | cons c cs ih =>
    unfold feedMany
    dsimp only
    rw [ih (feed buffer c).1 (splitNl_rem_no_nl (buffer ++ c)),
      List.flatten_cons, feed_append buffer c cs.flatten]

/-- C8 witness: a two-line input split in the middle of the first line. -/
theorem framer_chunk_boundary_invariance_wit :
    feedMany [] ["ab".toList, "\ncd".toList] =
      feed [] (["ab".toList, "\ncd".toList].flatten) :=
  framer_chunk_boundary_invariance [] ["ab".toList, "\ncd".toList]
    (by decide)

/-- C9: an input line that fails the JSON parse is dropped silently by
`handleMessage`: the engine state is returned unchanged (no error value
exists in the codomain, so nothing is raised or surfaced), and a stream
of candidate lines containing such a line produces exactly the state the
stream without it produces. -/
theorem malformed_line_dropped_silently (parse : String → Option Msg)
    (now : String) (st : Engine) (bad : String) (pre post : List String)
    (h : parse bad = none) :
    handleMessage parse now st bad = st ∧
    handleLines parse now st (pre ++ bad :: post) =
      handleLines parse now st (pre ++ post) := by
  constructor
  · unfold handleMessage
    rw [h]
  · unfold handleLines
    rw [List.foldl_append, List.foldl_append, List.foldl_cons]
    have h2 : handleMessage parse now
        (List.foldl (fun s l => handleMessage parse now s l) st pre) bad =
        List.foldl (fun s l => handleMessage parse now s l) st pre := by
      unfold handleMessage
      rw [h]
    rw [h2]

/-- C9 witness: a line on which the parse oracle fails, surrounded by an
empty stream. -/
theorem malformed_line_dropped_silently_wit :
    handleMessage parseNone "t0" demoEngine "not json at all" =
      demoEngine ∧
    handleLines parseNone "t0" demoEngine
        ([] ++ "not json at all" :: []) =
      handleLines parseNone "t0" demoEngine ([] ++ []) :=
  malformed_line_dropped_silently parseNone "t0" demoEngine
    "not json at all" [] [] rfl

/-- C10: when `callTool` rejects a non-whitelisted name, the single
appended RejectionRecord is the only state change: the resulting state
equals the input state with only the rejection log extended (so the call
log, whitelist, handler map, schema and description maps, counter,
pending table, buffer and session fields are all untouched), no
CallRecord is appended, and the call throws.  First conjunct
core.js/part_001, second part_000. -/
theorem rejection_log_is_only_state_change :
    (∀ (now : String) (st : Engine) (toolName params : String),
      toolName ∉ st.toolWhitelist →
      (callTool now st toolName params).1.rejectedCallLog =
          st.rejectedCallLog ++
            [{ timestamp := now
               attemptedTool := toolName
               reason := "Not in whitelist"
               availableTools := st.toolWhitelist }] ∧
      (callTool now st toolName params).1 =
        { st with rejectedCallLog :=
            (callTool now st toolName params).1.rejectedCallLog } ∧
      (callTool now st toolName params).1.toolCallLog = st.toolCallLog ∧
      ∃ e, (callTool now st toolName params).2 = Except.error e) ∧
    (∀ (now : String) (st : P0.State) (toolName : String)
        (params : P0.Params),
      toolName ∉ st.toolWhitelist →
      (P0.callTool now st toolName params).1.rejectedCallLog =
          st.rejectedCallLog ++
            [{ timestamp := now
               attemptedTool := toolName
               reason := "Not in whitelist"
               availableTools := st.toolWhitelist }] ∧
      (P0.callTool now st toolName params).1 =
        { st with rejectedCallLog :=
            (P0.callTool now st toolName params).1.rejectedCallLog } ∧
      (P0.callTool now st toolName params).1.toolCallLog =
          st.toolCallLog ∧
      ∃ e, (P0.callTool now st toolName params).2 = Except.error e) := by
  constructor
  · intro now st toolName params h
    rw [callTool_reject_eq now st toolName params h]
    exact ⟨rfl, rfl, rfl, ⟨_, rfl⟩⟩
  · intro now st toolName params h
    rw [p0_callTool_reject_eq now st toolName params h]
    exact ⟨rfl, rfl, rfl, ⟨_, rfl⟩⟩

/-- C10 witness: rejecting an unknown name against the demo engine and
the part_000 state. -/
theorem rejection_log_is_only_state_change_wit :
    ((callTool "t0" demoEngine "rm_rf" "x").1.rejectedCallLog =
        demoEngine.rejectedCallLog ++
          [{ timestamp := "t0"
             attemptedTool := "rm_rf"
             reason := "Not in whitelist"
             availableTools := demoEngine.toolWhitelist }] ∧
      (callTool "t0" demoEngine "rm_rf" "x").1 =
        { demoEngine with rejectedCallLog :=
            (callTool "t0" demoEngine "rm_rf" "x").1.rejectedCallLog } ∧
      (callTool "t0" demoEngine "rm_rf" "x").1.toolCallLog =
          demoEngine.toolCallLog ∧
      ∃ e, (callTool "t0" demoEngine "rm_rf" "x").2 = Except.error e) ∧
    ((P0.callTool "t0" P0.initialState "rm_rf" { query := "x" }).1.rejectedCallLog =
        P0.initialState.rejectedCallLog ++
          [{ timestamp := "t0"
             attemptedTool := "rm_rf"
             reason := "Not in whitelist"
             availableTools := P0.initialState.toolWhitelist }] ∧
      (P0.callTool "t0" P0.initialState "rm_rf" { query := "x" }).1 =
        { P0.initialState with rejectedCallLog :=
            (P0.callTool "t0" P0.initialState "rm_rf"
              { query := "x" }).1.rejectedCallLog } ∧
      (P0.callTool "t0" P0.initialState "rm_rf"
          { query := "x" }).1.toolCallLog =
        P0.initialState.toolCallLog ∧
      ∃ e, (P0.callTool "t0" P0.initialState "rm_rf"
          { query := "x" }).2 = Except.error e) :=
  ⟨rejection_log_is_only_state_change.1 "t0" demoEngine "rm_rf" "x"
     (by decide),
   rejection_log_is_only_state_change.2 "t0" P0.initialState "rm_rf"
     { query := "x" } (by decide)⟩

end Acp
